import Mathlib

/-!
Shallow embedding of the Career Redirector resolver (`src/app.py`).

Effectful library calls (httpx HEAD/GET, HTML fetches, DuckDuckGo search,
OpenAI chat/responses calls) are modelled by an oracle environment `Env`;
`none` from an oracle means the call raised an exception.  Pure library
functions (`urllib.parse.urlparse`, `urllib.parse.urljoin`, `json.loads`,
`re.sub`/`re.search` for the two fixed patterns) are modelled as Lean
functions faithful to the fragment the program exercises.  Places where
the Python code can raise an exception that is *not* caught are modelled
with `Except String`.
-/

set_option maxRecDepth 10000

namespace CareerAgent

/-! ## Python-style string primitives -/

/-- ASCII whitespace as recognised by Python `str.strip` / regex `\s`. -/
def pySpace (c : Char) : Bool :=
  c = ' ' || c = '\t' || c = '\n' || c = '\r' || c = '\x0b' || c = '\x0c'

/-- Word character for the regex `\b` boundary (`\w` = alphanumeric or underscore). -/
def isWordChar (c : Char) : Bool := c.isAlphanum || c = '_'

/-- Strip Python whitespace from both ends. -/
def pyStrip (s : List Char) : List Char :=
  ((s.dropWhile pySpace).reverse.dropWhile pySpace).reverse

def lowerL (s : List Char) : List Char := s.map Char.toLower

/-- Python `str.lower` (ASCII fragment). -/
def strLower (s : String) : String := String.mk (lowerL s.data)

/-- Does `needle` occur at the head of `hay`? -/
def matchesAt (needle hay : List Char) : Bool :=
  decide (hay.take needle.length = needle)

def strContainsAux (needle : List Char) : List Char → Bool
  | [] => matchesAt needle []
  | c :: rest => matchesAt needle (c :: rest) || strContainsAux needle rest

/-- Python substring test `needle in hay`. -/
def strContains (hay needle : String) : Bool := strContainsAux needle.data hay.data

/-! ## Model of `urllib.parse.urlparse` (CPython `urlsplit` + params split).

Modelled fragment: ASCII input, scheme detection, `//netloc` splitting at
`/?#`, path split before query/fragment, `;params` stripping from the last
path segment, removal of tab/CR/LF and leading C0-control/space characters,
and the mismatched-bracket `ValueError` (`none`).  Bracketed-host (IPv6)
validation of newer CPython is not modelled. -/

def c0OrSpace (c : Char) : Bool := decide (c.toNat ≤ 32)

/-- Preprocessing done by `urlsplit`: lstrip C0/space, drop tab/CR/LF. -/
def urlPre (s : List Char) : List Char :=
  (s.dropWhile c0OrSpace).filter (fun c => !(c = '\t' || c = '\r' || c = '\n'))

def schemeChar (c : Char) : Bool := c.isAlpha || c.isDigit || c = '+' || c = '-' || c = '.'

/-- Split a leading `scheme:` (lowercased) off a URL, if present. -/
def splitScheme (s : List Char) : String × List Char :=
  match s.findIdx? (fun c => c = ':') with
  | some i =>
    if 0 < i ∧ (match s.head? with | some c0 => c0.isAlpha | none => false) = true
        ∧ (s.take i).all schemeChar = true then
      (String.mk (lowerL (s.take i)), s.drop (i + 1))
    else ("", s)
  | none => ("", s)

/-- Index of the last `'/'` in `p` (meaningful only when one occurs). -/
def lastSlashIdx (p : List Char) : Nat :=
  p.length - 1 - ((p.reverse.findIdx? (fun c => c = '/')).getD 0)

/-- CPython `_splitparams`: strip `;params` from the last path segment. -/
def splitParams (p : List Char) : List Char :=
  if p.contains '/' then
    match (p.drop (lastSlashIdx p)).findIdx? (fun c => c = ';') with
    | some j => p.take (lastSlashIdx p + j)
    | none => p
  else
    match p.findIdx? (fun c => c = ';') with
    | some j => p.take j
    | none => p

structure UrlParts where
  scheme : String
  netloc : String
  /-- path as returned by `urlsplit` (before params are stripped) -/
  pathS : String
  /-- path as returned by `urlparse` (params stripped) -/
  path : String

def notNetlocEnd (c : Char) : Bool := !(c = '/' || c = '?' || c = '#')

def notPathEnd (c : Char) : Bool := !(c = '?' || c = '#')

/-- Model of `urllib.parse.urlparse`; `none` models a raised `ValueError`. -/
def urlparse (url : String) : Option UrlParts :=
  match splitScheme (urlPre url.data) with
  | (sch, rest) =>
    if decide (rest.take 2 = ['/', '/']) then
      match (rest.drop 2).takeWhile notNetlocEnd, (rest.drop 2).dropWhile notNetlocEnd with
      | nl, after =>
        if (nl.contains '[') != (nl.contains ']') then none
        else
          match after.takeWhile notPathEnd with
          | pathS => some ⟨sch, String.mk nl, String.mk pathS, String.mk (splitParams pathS)⟩
    else
      match rest.takeWhile notPathEnd with
      | pathS => some ⟨sch, "", String.mk pathS, String.mk (splitParams pathS)⟩

/-- `is_valid_url` from `src/app.py`. -/
def is_valid_url (url : String) : Bool :=
  match urlparse url with
  | some p => if (p.scheme = "http" ∨ p.scheme = "https") ∧ p.netloc ≠ "" then true else false
  | none => false

/-! ## Model of `json.loads`.

Modelled fragment: objects, arrays, strings (with the standard escapes and
`\uXXXX` below the surrogate range), integers with the JSON leading-zero
rule, `true`/`false`/`null`, and the four JSON whitespace characters.
Floating-point literals are outside the modelled fragment (they are
rejected, i.e. behave like a parse error); no claim exercises them. -/

inductive JVal where
  | jnull
  | jbool (b : Bool)
  | jnum (n : Int)
  | jstr (s : String)
  | jarr (a : List JVal)
  | jobj (o : List (String × JVal))

def jWs (c : Char) : Bool := c = ' ' || c = '\t' || c = '\n' || c = '\r'

def jSkipWs (s : List Char) : List Char := s.dropWhile jWs

def hexVal (c : Char) : Option Nat :=
  if c.isDigit then some (c.toNat - 48)
  else if 'a' ≤ c ∧ c ≤ 'f' then some (c.toNat - 87)
  else if 'A' ≤ c ∧ c ≤ 'F' then some (c.toNat - 55)
  else none

/-- JSON string body parser (opening quote already consumed). -/
def pStrAux : Nat → List Char → List Char → Option (String × List Char)
  | 0, _, _ => none
  | _ + 1, [], _ => none
  | f + 1, c :: rest, acc =>
    if c = '"' then some (String.mk acc.reverse, rest)
    else if c = '\\' then
      match rest with
      | [] => none
      | e :: rest2 =>
        if e = '"' then pStrAux f rest2 ('"' :: acc)
        else if e = '\\' then pStrAux f rest2 ('\\' :: acc)
        else if e = '/' then pStrAux f rest2 ('/' :: acc)
        else if e = 'b' then pStrAux f rest2 ('\x08' :: acc)
        else if e = 'f' then pStrAux f rest2 ('\x0c' :: acc)
        else if e = 'n' then pStrAux f rest2 ('\n' :: acc)
        else if e = 'r' then pStrAux f rest2 ('\r' :: acc)
        else if e = 't' then pStrAux f rest2 ('\t' :: acc)
        else if e = 'u' then
          match rest2 with
          | h1 :: h2 :: h3 :: h4 :: rest3 =>
            match hexVal h1, hexVal h2, hexVal h3, hexVal h4 with
            | some a, some b, some c2, some d =>
              let n := ((a * 16 + b) * 16 + c2) * 16 + d
              if h : n.isValidChar then pStrAux f rest3 (Char.ofNatAux n h :: acc) else none
            | _, _, _, _ => none
          | _ => none
        else none
    else if decide (c.toNat < 32) then none
    else pStrAux f rest (c :: acc)

def digitsToNat (ds : List Char) : Nat :=
  ds.foldl (fun n c => n * 10 + (c.toNat - 48)) 0

def startsFrac : List Char → Bool
  | c :: _ => c = '.' || c = 'e' || c = 'E'
  | [] => false

def pNumNat (s : List Char) : Option (Nat × List Char) :=
  match s with
  | [] => none
  | c :: rest =>
    if c = '0' then
      if startsFrac rest then none else some (0, rest)
    else if c.isDigit then
      let ds := rest.takeWhile Char.isDigit
      let rem := rest.dropWhile Char.isDigit
      if startsFrac rem then none else some (digitsToNat (c :: ds), rem)
    else none

def pNum (s : List Char) : Option (Int × List Char) :=
  match s with
  | '-' :: rest => (pNumNat rest).map (fun p => (-(p.1 : Int), p.2))
  | _ => (pNumNat s).map (fun p => ((p.1 : Int), p.2))

mutual

def pVal : Nat → List Char → Option (JVal × List Char)
  | 0, _ => none
  | f + 1, s0 =>
    match jSkipWs s0 with
    | [] => none
    | c :: rest =>
      if c = '\x7b' then
        match jSkipWs rest with
        | c2 :: rest2 =>
          if c2 = '\x7d' then some (JVal.jobj [], rest2)
          else pMembersAcc f (jSkipWs rest) []
        | [] => none
      else if c = '[' then
        match jSkipWs rest with
        | c2 :: rest2 =>
          if c2 = ']' then some (JVal.jarr [], rest2)
          else pItemsAcc f (jSkipWs rest) []
        | [] => none
      else if c = '"' then (pStrAux (rest.length + 1) rest []).map (fun p => (JVal.jstr p.1, p.2))
      else if c = 't' then
        if decide (rest.take 3 = ['r', 'u', 'e']) then some (JVal.jbool true, rest.drop 3) else none
      else if c = 'f' then
        if decide (rest.take 4 = ['a', 'l', 's', 'e']) then some (JVal.jbool false, rest.drop 4) else none
      else if c = 'n' then
        if decide (rest.take 3 = ['u', 'l', 'l']) then some (JVal.jnull, rest.drop 3) else none
      else (pNum (c :: rest)).map (fun p => (JVal.jnum p.1, p.2))

def pMembersAcc : Nat → List Char → List (String × JVal) → Option (JVal × List Char)
  | 0, _, _ => none
  | f + 1, s0, acc =>
    match jSkipWs s0 with
    | c :: rest =>
      if c = '"' then
        match pStrAux (rest.length + 1) rest [] with
        | some (k, s2) =>
          match jSkipWs s2 with
          | c2 :: rest2 =>
            if c2 = ':' then
              match pVal f rest2 with
              | some (v, s4) =>
                match jSkipWs s4 with
                | c3 :: rest3 =>
                  if c3 = ',' then pMembersAcc f rest3 (acc ++ [(k, v)])
                  else if c3 = '\x7d' then some (JVal.jobj (acc ++ [(k, v)]), rest3)
                  else none
                | [] => none
              | none => none
            else none
          | [] => none
        | none => none
      else none
    | [] => none

def pItemsAcc : Nat → List Char → List JVal → Option (JVal × List Char)
  | 0, _, _ => none
  | f + 1, s0, acc =>
    match pVal f s0 with
    | some (v, s2) =>
      match jSkipWs s2 with
      | c :: rest =>
        if c = ',' then pItemsAcc f rest (acc ++ [v])
        else if c = ']' then some (JVal.jarr (acc ++ [v]), rest)
        else none
      | [] => none
    | none => none

end

/-- Model of `json.loads`: parse one value, require only whitespace after. -/
def json_loads (s : String) : Option JVal :=
  match pVal (s.data.length + 2) s.data with
  | some (v, rest) => if decide (jSkipWs rest = []) then some v else none
  | none => none

/-- `dict` built by `json.loads` keeps the last value for a duplicated key. -/
def dictGet (o : List (String × JVal)) (k : String) : Option JVal :=
  match o with
  | [] => none
  | kv :: rest =>
    match dictGet rest k with
    | some v => some v
    | none => if kv.1 = k then some kv.2 else none

/-- Python `data.get(k)`: a stored JSON `null` is the same object as the
`None` returned for a missing key. -/
def pyGet (o : List (String × JVal)) (k : String) : Option JVal :=
  match dictGet o k with
  | some JVal.jnull => none
  | x => x

/-! ## Model of the `re.search` pattern used for JSON salvage.

Pattern (with `re.S`):
`\{.*"company"\s*:\s*".*?".*"official_website"\s*:\s*".*?".*"careers_url"\s*:\s*".*?".*\}`
implemented with a backtracking matcher over a token list: literal pieces,
greedy `.*`, lazy `.*?` and greedy `\s*` (with `re.S`, `.` matches any
character).  `re.search` takes the leftmost starting position. -/

inductive RTok where
  | lit (s : List Char)
  | anyG
  | anyL
  | wsStar

def descRange (n : Nat) : List Nat := (List.range (n + 1)).reverse

def ascRange (n : Nat) : List Nat := List.range (n + 1)

mutual

def mrunF : Nat → List RTok → List Char → Option Nat
  | 0, _, _ => none
  | _ + 1, [], _ => some 0
  | f + 1, RTok.lit l :: ps2, s =>
    if decide (s.take l.length = l) then (mrunF f ps2 (s.drop l.length)).map (fun n => n + l.length)
    else none
  | f + 1, RTok.anyG :: ps2, s => tryKs f ps2 s (descRange s.length)
  | f + 1, RTok.anyL :: ps2, s => tryKs f ps2 s (ascRange s.length)
  | f + 1, RTok.wsStar :: ps2, s => tryKs f ps2 s (descRange (s.takeWhile pySpace).length)

/-- Try the candidate star widths in `ks` order; first full match wins. -/
def tryKs : Nat → List RTok → List Char → List Nat → Option Nat
  | 0, _, _, _ => none
  | _ + 1, _, _, [] => none
  | f + 1, ps2, s, k :: ks =>
    match mrunF f ps2 (s.drop k) with
    | some n => some (n + k)
    | none => tryKs f ps2 s ks

end

/-- Run the matcher with enough fuel for every backtracking path. -/
def mrun (ps : List RTok) (s : List Char) : Option Nat :=
  mrunF ((ps.length + 1) * (s.length + 2)) ps s

def keyValToks (key : List Char) : List RTok :=
  [RTok.lit key, RTok.wsStar, RTok.lit [':'], RTok.wsStar, RTok.lit ['"'], RTok.anyL,
   RTok.lit ['"']]

/-- Token form of the salvage regex. -/
def salvagePat : List RTok :=
  [RTok.lit ['\x7b'], RTok.anyG] ++ keyValToks "\"company\"".data ++
  [RTok.anyG] ++ keyValToks "\"official_website\"".data ++
  [RTok.anyG] ++ keyValToks "\"careers_url\"".data ++
  [RTok.anyG, RTok.lit ['\x7d']]

/-- `re.search(pattern, text, re.S)` followed by `m.group(0)`. -/
def reSearch (s : String) : Option String :=
  (ascRange s.data.length).findSome?
    (fun i => (mrun salvagePat (s.data.drop i)).map (fun n => String.mk ((s.data.drop i).take n)))

/-! ## Effect oracle.

One field per kind of external call the program makes; `none` models a
raised exception.  HTML parsing (BeautifulSoup) is abstracted to the data
the code reads from it: the anchors of a fetched page, and the hrefs of
the `.result__a` anchors of a search-result page. -/

/-- An `<a href=...>` element: its href attribute and its text content. -/
structure Anchor where
  href : String
  text : String

/-- Shape of a `client.responses.create` result: the `output_text`
attribute (when present and non-null) and, for each block of `output`,
the `.text.value` of each content item (`none` when absent). -/
structure RespOut where
  output_text : Option String
  blocks : List (List (Option String))

structure Env where
  /-- `httpx` HEAD status for a URL -/
  head : String → Option Nat
  /-- `httpx` GET status for a URL -/
  get : String → Option Nat
  /-- homepage fetch: status and anchors of the parsed document -/
  page : String → Option (Nat × List Anchor)
  /-- DuckDuckGo HTML search keyed by query: status and `.result__a` hrefs -/
  search : String → Option (Nat × List (Option String))
  /-- chat.completions with `response_format` (attempt 1): outer `none` =
  raised (TypeError or other); inner value is `message.content` -/
  chatJson : String → Option (Option String)
  /-- chat.completions without `response_format` (attempt 2) -/
  chatPlain : String → Option (Option String)
  /-- responses API call (attempt 3) -/
  responses : String → Option RespOut

/-! ## Helper tables and functions from `src/app.py` -/

def COMMON_CAREER_PATHS : List String :=
  ["careers", "jobs", "company/careers", "about/careers", "about-us/careers",
   "career", "join-us", "work-with-us"]

def POPULAR_DOMAINS : List (String × String) :=
  [("google", "https://about.google"),
   ("microsoft", "https://www.microsoft.com"),
   ("apple", "https://www.apple.com"),
   ("amazon", "https://www.amazon.com"),
   ("meta", "https://about.meta.com"),
   ("netflix", "https://www.netflix.com"),
   ("tesla", "https://www.tesla.com"),
   ("nvidia", "https://www.nvidia.com"),
   ("openai", "https://openai.com"),
   ("uber", "https://www.uber.com"),
   ("airbnb", "https://www.airbnb.com"),
   ("stripe", "https://stripe.com"),
   ("salesforce", "https://www.salesforce.com"),
   ("oracle", "https://www.oracle.com")]

/-! ### `normalize_company`: strip, lower, drop legal suffixes, collapse.

The legal-suffix regex is `\b(inc|inc\.|llc|corp|co\.|company|ltd)\b` with
`re.sub`: leftmost scan, alternatives tried in order, `\b` is a
word/non-word transition. -/

def tokAlts : List (List Char) :=
  ["inc".data, "inc.".data, "llc".data, "corp".data, "co.".data, "company".data, "ltd".data]

/-- Try to match one regex alternative at the current position; `prevW` is
whether the previous character is a word character.  Returns the length of
the match. -/
def tryTok (prevW : Bool) (s : List Char) : Option Nat :=
  tokAlts.findSome? (fun a =>
    if prevW = false ∧ s.take a.length = a then
      let lastW := match a.getLast? with | some c => isWordChar c | none => false
      let nextW := match s.drop a.length with | c :: _ => isWordChar c | [] => false
      if lastW ≠ nextW then some a.length else none
    else none)

/-- `re.sub` of the legal-suffix pattern with the empty replacement. -/
def subTokens : Nat → Bool → List Char → List Char
  | 0, _, s => s
  | _ + 1, _, [] => []
  | f + 1, prevW, c :: rest =>
    match tryTok prevW (c :: rest) with
    | some n =>
      let pw := match ((c :: rest).take n).getLast? with | some d => isWordChar d | none => prevW
      subTokens f pw ((c :: rest).drop n)
    | none => c :: subTokens f (isWordChar c) rest

/-- `re.sub(r"\s+", " ", ·)`. -/
def collapseWs : Nat → List Char → List Char
  | 0, s => s
  | _ + 1, [] => []
  | f + 1, c :: rest =>
    if pySpace c then ' ' :: collapseWs f (rest.dropWhile pySpace)
    else c :: collapseWs f rest

/-- `normalize_company` from `src/app.py`. -/
def normalize_company (user_text : String) : String :=
  let h1 := lowerL (pyStrip user_text.data)
  let h2 := subTokens h1.length false h1
  String.mk (pyStrip (collapseWs h2.length h2))

/-! ### Model of `urllib.parse.urljoin`.

Modelled fragment (covering every join the program performs): empty
reference, absolute references with a scheme, network-path (`//`),
absolute-path (`/...`) and relative-path references; no `.`/`..` segment
normalization and no merging of same-scheme relative references. -/

def rawScheme (u : String) : String := (splitScheme (urlPre u.data)).1

def originOf (b : String) : String :=
  match urlparse b with
  | some p => p.scheme ++ "://" ++ p.netloc
  | none => b

def dirFrom (p : List Char) : List Char :=
  if p.contains '/' then p.take (lastSlashIdx p + 1) else ['/']

def baseDir (b : String) : String :=
  match urlparse b with
  | some p =>
    if p.pathS = "" then p.scheme ++ "://" ++ p.netloc ++ "/"
    else p.scheme ++ "://" ++ p.netloc ++ String.mk (dirFrom p.pathS.data)
  | none => b

def urljoin (base url : String) : String :=
  if url = "" then base
  else if rawScheme url ≠ "" then url
  else if decide (url.data.take 2 = ['/', '/']) then rawScheme base ++ ":" ++ url
  else if decide (url.data.take 1 = ['/']) then originOf base ++ url
  else baseDir base ++ url

/-! ### Reachability prober, careers discovery, search -/

/-- `safe_head` from `src/app.py`: HEAD, retry with GET on an error status
or 405; true iff the final status is in `[200, 400)`; any exception gives
false. -/
def safe_head (e : Env) (url : String) : Bool :=
  match e.head url with
  | none => false
  | some sc =>
    if 400 ≤ sc ∨ sc = 405 then
      match e.get url with
      | none => false
      | some sc2 => decide (200 ≤ sc2 ∧ sc2 < 400)
    else decide (200 ≤ sc ∧ sc < 400)

/-- `domain_url if domain_url.endswith("/") else domain_url + "/"`. -/
def slashNorm (d : String) : String :=
  if d.data.getLast? = some '/' then d else d ++ "/"

/-- The `for path in COMMON_CAREER_PATHS` probe loop. -/
def probePaths (e : Env) (base : String) : List String → Option String
  | [] => none
  | p :: rest =>
    if safe_head e (urljoin base p) then some (urljoin base p) else probePaths e base rest

/-- The homepage anchor scan: first anchor whose text mentions
career/job/join and whose joined href is reachable. -/
def scanAnchors (e : Env) (base : String) : List Anchor → Option String
  | [] => none
  | a :: rest =>
    if strContains (strLower a.text) "career" || strContains (strLower a.text) "job"
        || strContains (strLower a.text) "join" then
      if safe_head e (urljoin base a.href) then some (urljoin base a.href)
      else scanAnchors e base rest
    else scanAnchors e base rest

/-- `discover_careers_from_domain` from `src/app.py`. -/
def discover_careers_from_domain (e : Env) (domain_url : String) : Option String :=
  match probePaths e (slashNorm domain_url) COMMON_CAREER_PATHS with
  | some c => some c
  | none =>
    match e.page (slashNorm domain_url) with
    | none => none
    | some (sc, anchors) =>
      if 200 ≤ sc ∧ sc < 400 then scanAnchors e (slashNorm domain_url) anchors else none

/-- First `.result__a` href that is truthy and contains `http://` or
`https://`. -/
def firstHttpHref : List (Option String) → Option String
  | [] => none
  | some h :: rest =>
    if h ≠ "" ∧ (strContains h "http://" ∨ strContains h "https://") then some h
    else firstHttpHref rest
  | none :: rest => firstHttpHref rest

/-- `ddg_first_result` from `src/app.py`. -/
def ddg_first_result (e : Env) (q : String) : Option String :=
  match e.search q with
  | none => none
  | some (sc, anchors) => if sc = 200 then firstHttpHref anchors else none

/-! ### The LLM-backed company resolver -/

/-- The partial `{company, official_website, careers_url}` dict returned by
`openai_guess_company_and_urls`: each field is the result of `.get`, so a
missing key and a JSON `null` both give `none`.  The Python empty dict
`{}` and a dict whose three values are all `None` are observationally
identical through `.get` and are both modelled as `⟨none, none, none⟩`. -/
structure Triple where
  company : Option JVal
  official_website : Option JVal
  careers_url : Option JVal

def mkTriple (o : List (String × JVal)) : Triple :=
  ⟨pyGet o "company", pyGet o "official_website", pyGet o "careers_url"⟩

/-- Attempt 1: chat completions with JSON mode.  Succeeds iff the call
returns, the content is a string that parses as JSON, and the parsed value
is a dict (otherwise `data.get` raises and the exception is swallowed). -/
def attempt1 (e : Env) (t : String) : Option Triple :=
  match e.chatJson t with
  | some (some c) =>
    match json_loads c with
    | some (JVal.jobj o) => some (mkTriple o)
    | _ => none
  | _ => none

/-- Attempt 2: chat completions without JSON mode; on a parse failure the
regex salvage runs, and a failed salvage still returns the empty dict. -/
def attempt2 (e : Env) (t : String) : Option Triple :=
  match e.chatPlain t with
  | some (some c) =>
    match json_loads c with
    | some (JVal.jobj o) => some (mkTriple o)
    | some _ => none
    | none =>
      match reSearch c with
      | none => some ⟨none, none, none⟩
      | some g =>
        match json_loads g with
        | some (JVal.jobj o) => some (mkTriple o)
        | _ => none
  | _ => none

/-- The text-candidate collection loop of attempt 3 (only truthy strings
are appended). -/
def collectBlock : List (Option String) → List String
  | [] => []
  | some t :: rest => if t ≠ "" then t :: collectBlock rest else collectBlock rest
  | none :: rest => collectBlock rest

def collectTexts : List (List (Option String)) → List String
  | [] => []
  | b :: bs => collectBlock b ++ collectTexts bs

/-- Attempt 3: responses API; extract the first truthy text candidate and
parse it like attempt 2. -/
def attempt3 (e : Env) (t : String) : Option Triple :=
  match e.responses t with
  | none => none
  | some r =>
    match (match r.output_text with
           | some s => if s ≠ "" then [s] else []
           | none => []) ++ collectTexts r.blocks with
    | [] => none
    | text :: _ =>
      match json_loads text with
      | some (JVal.jobj o) => some (mkTriple o)
      | some _ => none
      | none =>
        match reSearch text with
        | none => some ⟨none, none, none⟩
        | some g =>
          match json_loads g with
          | some (JVal.jobj o) => some (mkTriple o)
          | _ => none

/-- `openai_guess_company_and_urls` from `src/app.py`.  `hasClient` models
`client` being non-`None` (an `OPENAI_API_KEY` was configured). -/
def openai_guess_company_and_urls (hasClient : Bool) (e : Env) (t : String) : Triple :=
  if hasClient then
    match attempt1 e t with
    | some d => d
    | none =>
      match attempt2 e t with
      | some d => d
      | none =>
        match attempt3 e t with
        | some d => d
        | none => ⟨none, none, none⟩
  else ⟨none, none, none⟩

/-! ### The resolution orchestrator -/

/-- Python truthiness of a JSON value. -/
def truthyV : JVal → Bool
  | JVal.jnull => false
  | JVal.jbool b => b
  | JVal.jnum n => decide (n ≠ 0)
  | JVal.jstr s => decide (s ≠ "")
  | JVal.jarr a => !a.isEmpty
  | JVal.jobj o => !o.isEmpty

def truthyO : Option JVal → Bool
  | none => false
  | some v => truthyV v

/-- `safe_head` applied to an arbitrary Python value: `httpx` raises a
`TypeError` on a non-string URL, which `safe_head` turns into `False`. -/
def safeHeadJ (e : Env) (v : Option JVal) : Bool :=
  match v with
  | some (JVal.jstr s) => safe_head e s
  | _ => false

structure DebugInfo where
  mode : Option String
  hint : Option String
  openai_raw : Option Triple

def ResolveResult := Option JVal × Option JVal × DebugInfo

def optTruthyS : Option String → Bool
  | some s => decide (s ≠ "")
  | none => false

/-- `maybe = discover_careers_from_domain(official); careers = maybe or user_text`. -/
def fallbackCareers (e : Env) (official t : String) : String :=
  match discover_careers_from_domain e official with
  | some m => if m ≠ "" then m else t
  | none => t

/-- Branch 1 of `best_urls_from_all_signals` (valid-URL input).  The
second `urlparse` call can raise in principle, hence `Except`. -/
def directBranch (e : Env) (t : String) : Except String ResolveResult :=
  match urlparse t with
  | none => Except.error "ValueError: urlparse"
  | some p =>
    match (if strContains (strLower p.path) "career" ∨ strContains (strLower p.path) "job"
           then some t else none) with
    | some c =>
      if c ≠ "" then
        Except.ok (some (JVal.jstr (p.scheme ++ "://" ++ p.netloc)), some (JVal.jstr c),
                   ⟨some "direct_url", none, none⟩)
      else
        Except.ok (some (JVal.jstr (p.scheme ++ "://" ++ p.netloc)),
                   some (JVal.jstr (fallbackCareers e (p.scheme ++ "://" ++ p.netloc) t)),
                   ⟨some "direct_url", none, none⟩)
    | none =>
      Except.ok (some (JVal.jstr (p.scheme ++ "://" ++ p.netloc)),
                 some (JVal.jstr (fallbackCareers e (p.scheme ++ "://" ++ p.netloc) t)),
                 ⟨some "direct_url", none, none⟩)

/-- Branch 2: popular-domain shortcut for the first matching key. -/
def popularBranch (e : Env) (kd : String × String) : Except String ResolveResult :=
  Except.ok (some (JVal.jstr kd.2),
             (match discover_careers_from_domain e kd.2 with
              | some m => if m ≠ "" then some m else ddg_first_result e (kd.1 ++ " careers site")
              | none => ddg_first_result e (kd.1 ++ " careers site")).map JVal.jstr,
             ⟨some "popular_map", none, none⟩)

def findPopular (hint : String) : Option (String × String) :=
  POPULAR_DOMAINS.find? (fun kd => strContains hint kd.1)

/-- `if official and not safe_head(official): official = None`. -/
def officialCheck (e : Env) (o : Option JVal) : Option JVal :=
  if truthyO o ∧ ¬ safeHeadJ e o then none else o

/-- `if official and (not careers or not safe_head(careers)): ...` — calls
`discover_careers_from_domain(official)`; on a non-string truthy official
that call would raise an uncaught `AttributeError` (`.error`). -/
def careersStep (e : Env) (o c : Option JVal) : Except String (Option JVal) :=
  if truthyO o ∧ (¬ truthyO c ∨ ¬ safeHeadJ e c) then
    match o with
    | some (JVal.jstr s) =>
      Except.ok (match discover_careers_from_domain e s with
                 | some m => if m ≠ "" then some (JVal.jstr m) else c
                 | none => c)
    | _ => Except.error "AttributeError: endswith"
  else Except.ok c

/-- One search-fallback slot: keep a truthy value; otherwise take the
first search hit if it is truthy and reachable, else leave unchanged. -/
def fallbackField (e : Env) (cur : Option JVal) (q : String) : Option JVal :=
  if truthyO cur then cur
  else
    match ddg_first_result e q with
    | some h => if h ≠ "" ∧ safe_head e h then some (JVal.jstr h) else cur
    | none => cur

/-- Branches 3–4: LLM suggestion plus search fallback. -/
def llmAndFallback (hc : Bool) (e : Env) (t hint : String) : Except String ResolveResult :=
  match careersStep e
      (officialCheck e (openai_guess_company_and_urls hc e t).official_website)
      (openai_guess_company_and_urls hc e t).careers_url with
  | Except.error m => Except.error m
  | Except.ok c1 =>
    Except.ok
      (fallbackField e
        (officialCheck e (openai_guess_company_and_urls hc e t).official_website)
        (hint ++ " official site"),
       fallbackField e c1 (hint ++ " careers site"),
       ⟨none, some hint, some (openai_guess_company_and_urls hc e t)⟩)

/-- `best_urls_from_all_signals` from `src/app.py`. -/
def best_urls_from_all_signals (hc : Bool) (e : Env) (t : String) :
    Except String ResolveResult :=
  if is_valid_url t then directBranch e t
  else
    match findPopular (normalize_company t) with
    | some kd => popularBranch e kd
    | none => llmAndFallback hc e t (normalize_company t)

/-! ## Claim-side definitions (phrased from the specification text, to be
compared against the code model) and concrete oracle environments. -/

/-- Final status per the spec's reading of the prober: HEAD first, retry
with GET exactly when the HEAD status is `>= 400` or `405`. -/
def finalStatus (e : Env) (u : String) : Option Nat :=
  match e.head u with
  | none => none
  | some s => if 400 ≤ s ∨ s = 405 then e.get u else some s

/-- Amended search-fallback behaviour: accept the first result link iff it
is truthy and passes the reachability probe; otherwise produce nothing. -/
def searchAccept (e : Env) (q : String) : Option JVal :=
  match ddg_first_result e q with
  | some h => if h ≠ "" ∧ safe_head e h then some (JVal.jstr h) else none
  | none => none

/-- A triple has a usable field (claim C1's wording) when at least one of
the three values is truthy. -/
def usableFields (d : Triple) : Bool :=
  truthyO d.company || truthyO d.official_website || truthyO d.careers_url

/-- Claim C1's stated winner: the first attempt yielding a parseable
object with at least one usable field. -/
def claimFirstUsable (e : Env) (t : String) : Option Triple :=
  [attempt1 e t, attempt2 e t, attempt3 e t].findSome?
    (fun r => r.bind (fun d => if usableFields d then some d else none))

/-- The result links of a search, as claim C4 speaks of them. -/
def resultLinks (e : Env) (q : String) : List String :=
  match e.search q with
  | none => []
  | some (sc, anchors) => if sc = 200 then anchors.filterMap id else []

/-- Claim C4's stated winner: the first search result that is reachable. -/
def claimFirstReachable (e : Env) (q : String) : Option String :=
  (resultLinks e q).find? (fun r => safe_head e r)

/-- Environment in which every external call raises (e.g. no network, or
a host that cannot be resolved). -/
def envFail : Env :=
  ⟨fun _ => none, fun _ => none, fun _ => none, fun _ => none,
   fun _ => none, fun _ => none, fun _ => none⟩

/-- Environment for C5: HEAD always answers 405, GET answers 200. -/
def env405 : Env :=
  ⟨fun _ => some 405, fun _ => some 200, fun _ => none, fun _ => none,
   fun _ => none, fun _ => none, fun _ => none⟩

def acmeJson : String :=
  "\x7b\"company\":\"Acme\",\"official_website\":\"https://acme.test\",\"careers_url\":\"https://acme.test/careers\"\x7d"

/-- Environment for the C1 counterexample: attempt 1 returns the parseable
but field-free object `{}`, attempt 2 would return a fully usable one. -/
def envC1 : Env :=
  ⟨fun _ => none, fun _ => none, fun _ => none, fun _ => none,
   fun _ => some (some "\x7b\x7d"), fun _ => some (some acmeJson), fun _ => none⟩

/-- Environment for the C4 counterexample: the search returns an
unreachable first result and a reachable second one. -/
def envC4 : Env :=
  ⟨fun u => if u = "https://dead.test" then some 500
            else if u = "https://live.test" then some 200 else none,
   fun u => if u = "https://dead.test" then some 500 else none,
   fun _ => none,
   fun q => if q = "zzz official site"
            then some (200, [some "https://dead.test", some "https://live.test"]) else none,
   fun _ => none, fun _ => none, fun _ => none⟩

/-- Environment for C6: exactly the `jobs` suffix is reachable. -/
def envC6 : Env :=
  ⟨fun u => if u = "https://x.test/jobs" then some 200 else none,
   fun _ => none, fun _ => none, fun _ => none,
   fun _ => none, fun _ => none, fun _ => none⟩

/-- Environment for the C9 witness: the official-site search result is
reachable, the careers-site one is not. -/
def envC9 : Env :=
  ⟨fun u => if u = "https://ok.test" then some 200
            else if u = "https://bad.test" then some 500 else none,
   fun u => if u = "https://bad.test" then some 500 else none,
   fun _ => none,
   fun q => if q = "zzz official site" then some (200, [some "https://ok.test"])
            else if q = "zzz careers site" then some (200, [some "https://bad.test"]) else none,
   fun _ => none, fun _ => none, fun _ => none⟩

/-- Environment for the C10 witness: the LLM proposes a reachable official
site and an unreachable careers URL, path discovery finds nothing, and the
careers search would have found a reachable link. -/
def envC10 : Env :=
  ⟨fun u => if u = "https://x.test" then some 200
            else if u = "https://x.test/hire" then some 404
            else if u = "https://win.test" then some 200 else none,
   fun u => if u = "https://x.test/hire" then some 404 else none,
   fun _ => none,
   fun q => if q = "zqx careers site" then some (200, [some "https://win.test"]) else none,
   fun t => if t = "zqx"
            then some (some "\x7b\"company\":\"X\",\"official_website\":\"https://x.test\",\"careers_url\":\"https://x.test/hire\"\x7d")
            else none,
   fun _ => none, fun _ => none⟩

/-! ## Helper lemmas -/

theorem probePaths_eq_find (e : Env) (base : String) :
    ∀ l : List String, probePaths e base l =
      (l.find? (fun q => safe_head e (urljoin base q))).map (fun q => urljoin base q)
  | [] => rfl
  | p :: rest => by
    unfold probePaths
    by_cases h : safe_head e (urljoin base p)
    · simp [List.find?, h]
    · simp [List.find?, h, probePaths_eq_find e base rest]

theorem safeHeadJ_true {e : Env} {o : Option JVal} (h : safeHeadJ e o = true) :
    ∃ s, o = some (JVal.jstr s) ∧ safe_head e s = true := by
  unfold safeHeadJ at h
  match o, h with
  | some (JVal.jstr s), h => exact ⟨s, rfl, h⟩

theorem officialCheck_truthy (e : Env) (o : Option JVal)
    (h : truthyO (officialCheck e o) = true) : safeHeadJ e (officialCheck e o) = true := by
  unfold officialCheck at h ⊢
  by_cases hc : truthyO o = true ∧ ¬ safeHeadJ e o = true
  · rw [if_pos hc] at h
    exact absurd h (by simp [truthyO])
  · rw [if_neg hc] at h ⊢
    rcases Decidable.not_and_iff_or_not.mp hc with h1 | h2
    · exact absurd h h1
    · exact Decidable.not_not.mp h2

theorem careersStep_ok (e : Env) (o c : Option JVal)
    (h : truthyO o = true → safeHeadJ e o = true) :
    ∃ x, careersStep e o c = Except.ok x := by
  unfold careersStep
  by_cases hc : truthyO o = true ∧ (¬ truthyO c = true ∨ ¬ safeHeadJ e c = true)
  · rw [if_pos hc]
    obtain ⟨s, hs, _⟩ := safeHeadJ_true (h hc.1)
    rw [hs]
    exact ⟨_, rfl⟩
  · rw [if_neg hc]
    exact ⟨c, rfl⟩

theorem urlparse_empty : urlparse "" = some ⟨"", "", "", ""⟩ := rfl

theorem input_ne_empty {t : String} {p : UrlParts} (hp : urlparse t = some p)
    (hn : p.netloc ≠ "") : t ≠ "" := by
  intro h
  subst h
  rw [urlparse_empty] at hp
  cases hp
  exact hn rfl

theorem fallbackField_none (e : Env) (q : String) :
    fallbackField e none q = searchAccept e q := by
  unfold fallbackField searchAccept
  cases hd : ddg_first_result e q <;> simp [truthyO]

/-- With an all-`none` triple the LLM stage changes nothing and both
search fallbacks run. -/
theorem empty_ai_fallback (hc : Bool) (e : Env) (t : String)
    (h1 : is_valid_url t = false)
    (h2 : findPopular (normalize_company t) = none)
    (h3 : openai_guess_company_and_urls hc e t = ⟨none, none, none⟩) :
    best_urls_from_all_signals hc e t =
      Except.ok (searchAccept e (normalize_company t ++ " official site"),
                 searchAccept e (normalize_company t ++ " careers site"),
                 ⟨none, some (normalize_company t), some ⟨none, none, none⟩⟩) := by
  unfold best_urls_from_all_signals
  rw [h1, if_neg (by simp), h2]
  unfold llmAndFallback
  rw [h3]
  have ho : officialCheck e (Triple.mk none none none).official_website = none := by
    unfold officialCheck
    split <;> rfl
  rw [ho]
  have hcs : careersStep e none (Triple.mk none none none).careers_url =
      Except.ok none := by
    unfold careersStep
    rw [if_neg (by simp [truthyO])]
  rw [hcs]
  dsimp only
  rw [fallbackField_none, fallbackField_none]

/-! ## Claim theorems -/

/-- C1 (amended): the resolver tries the three request shapes in order and
the first attempt that yields a parseable JSON object (a dict — whether or
not any of its fields is usable) determines the returned triple; a failed
attempt is absorbed and the next one is tried; if no attempt yields a
dict, the empty triple is returned. -/
theorem openai_first_dict_attempt_wins :
    (∀ e t d, attempt1 e t = some d → openai_guess_company_and_urls true e t = d) ∧
    (∀ e t d, attempt1 e t = none → attempt2 e t = some d →
      openai_guess_company_and_urls true e t = d) ∧
    (∀ e t d, attempt1 e t = none → attempt2 e t = none → attempt3 e t = some d →
      openai_guess_company_and_urls true e t = d) ∧
    (∀ e t, attempt1 e t = none → attempt2 e t = none → attempt3 e t = none →
      openai_guess_company_and_urls true e t = ⟨none, none, none⟩) := by
  refine ⟨?_, ?_, ?_, ?_⟩
  · intro e t d h1
    unfold openai_guess_company_and_urls
    rw [h1]
    rfl
  · intro e t d h1 h2
    unfold openai_guess_company_and_urls
    rw [h1, h2]
    rfl
  · intro e t d h1 h2 h3
    unfold openai_guess_company_and_urls
    rw [h1, h2, h3]
    rfl
  · intro e t h1 h2 h3
    unfold openai_guess_company_and_urls
    rw [h1, h2, h3]
    rfl

/-- C1 witness: in the all-raising environment every attempt fails and the
empty triple is returned. -/
theorem openai_first_dict_attempt_wins_witness :
    attempt1 envFail "x" = none ∧ attempt2 envFail "x" = none ∧ attempt3 envFail "x" = none ∧
    openai_guess_company_and_urls true envFail "x" = ⟨none, none, none⟩ :=
  ⟨rfl, rfl, rfl, openai_first_dict_attempt_wins.2.2.2 envFail "x" rfl rfl rfl⟩

/-- C1 counterexample: attempt 1 yields the parseable but field-free
object `{}` and wins, although the claim's stated winner (the first
attempt with a usable field) is attempt 2's fully-populated triple. -/
theorem openai_usable_field_rule_refuted :
    claimFirstUsable envC1 "acme" =
      some ⟨some (JVal.jstr "Acme"), some (JVal.jstr "https://acme.test"),
            some (JVal.jstr "https://acme.test/careers")⟩ ∧
    openai_guess_company_and_urls true envC1 "acme" = ⟨none, none, none⟩ ∧
    ¬ openai_guess_company_and_urls true envC1 "acme" =
        (claimFirstUsable envC1 "acme").getD ⟨none, none, none⟩ :=
  ⟨rfl, rfl, fun h => Option.noConfusion (congrArg Triple.company h)⟩

/-- C5: `safe_head` returns true iff the final status — HEAD's, or GET's
exactly when HEAD answered an error status (`≥ 400`) or `405` — lies in
`[200, 400)`; a transport failure gives false (in particular every probe
of an unresolvable host), and a HEAD of 405 followed by a GET of 200 gives
true. -/
theorem safe_head_final_status :
    (∀ e u, safe_head e u = true ↔ ∃ s, finalStatus e u = some s ∧ 200 ≤ s ∧ s < 400) ∧
    (∀ u, safe_head envFail u = false) ∧
    safe_head env405 "https://h.test" = true ∧
    finalStatus env405 "https://h.test" = some 200 := by
  refine ⟨?_, fun u => rfl, rfl, rfl⟩
  intro e u
  unfold safe_head finalStatus
  cases hh : e.head u with
  | none => simp
  | some sc =>
    dsimp only
    by_cases hr : 400 ≤ sc ∨ sc = 405
    · rw [if_pos hr, if_pos hr]
      cases hg : e.get u with
      | none => simp
      | some sc2 => simp
    · rw [if_neg hr, if_neg hr]
      simp

/-- C6: the discoverer probes exactly the eight fixed suffixes in order
against the slash-normalized base and returns the first reachable joined
candidate. -/
theorem discover_probes_in_order :
    COMMON_CAREER_PATHS = ["careers", "jobs", "company/careers", "about/careers",
      "about-us/careers", "career", "join-us", "work-with-us"] ∧
    (∀ e d p, COMMON_CAREER_PATHS.find? (fun q => safe_head e (urljoin (slashNorm d) q)) = some p →
      discover_careers_from_domain e d = some (urljoin (slashNorm d) p)) := by
  refine ⟨rfl, ?_⟩
  intro e d p h
  unfold discover_careers_from_domain
  rw [probePaths_eq_find, h]
  rfl

/-- C6 witness: a domain where exactly the `jobs` suffix is reachable
yields exactly that joined URL. -/
theorem discover_probes_in_order_witness :
    COMMON_CAREER_PATHS.find?
      (fun q => safe_head envC6 (urljoin (slashNorm "https://x.test") q)) = some "jobs" ∧
    COMMON_CAREER_PATHS.filter
      (fun q => safe_head envC6 (urljoin (slashNorm "https://x.test") q)) = ["jobs"] ∧
    discover_careers_from_domain envC6 "https://x.test" = some "https://x.test/jobs" :=
  ⟨rfl, rfl, discover_probes_in_order.2 envC6 "https://x.test" "jobs" rfl⟩

/-- C7: `is_valid_url` returns true exactly on strings that parse to an
absolute URL with scheme http or https and a non-empty host, and false
(it is a total Boolean function, never an error) on everything else,
including malformed input on which parsing itself raises. -/
theorem is_valid_url_iff :
    (∀ s, is_valid_url s = true ↔
      ∃ p, urlparse s = some p ∧ (p.scheme = "http" ∨ p.scheme = "https") ∧ p.netloc ≠ "") ∧
    is_valid_url "https://openai.com/careers" = true ∧
    is_valid_url "nvidia" = false ∧
    is_valid_url "http://" = false ∧
    is_valid_url "https://[x" = false := by
  refine ⟨?_, rfl, rfl, rfl, rfl⟩
  intro s
  unfold is_valid_url
  cases hp : urlparse s with
  | none => simp
  | some p =>
    dsimp only
    constructor
    · intro h
      refine ⟨p, rfl, ?_⟩
      by_cases hc : (p.scheme = "http" ∨ p.scheme = "https") ∧ p.netloc ≠ ""
      · exact hc
      · rw [if_neg hc] at h
        exact absurd h (by simp)
    · intro ⟨q, hq, hvc⟩
      cases hq
      rw [if_pos hvc]

/-- C2: for every input and every behaviour of the network, parse and LLM
oracles, the orchestrator terminates with an `ok` result (a pair of
optional values plus a trace); no error escapes to the caller.  The only
two syntactic raise-sites of the model (the unguarded second `urlparse`
and `discover_careers_from_domain` on a non-string official value) are
proved unreachable. -/
theorem best_urls_never_raises (hc : Bool) (e : Env) (t : String) :
    ∃ r, best_urls_from_all_signals hc e t = Except.ok r := by
  unfold best_urls_from_all_signals
  by_cases hv : is_valid_url t = true
  · rw [if_pos hv]
    unfold directBranch
    unfold is_valid_url at hv
    cases hp : urlparse t with
    | none =>
      rw [hp] at hv
      simp at hv
    | some p =>
      dsimp only
      split
      · split
        · exact ⟨_, rfl⟩
        · exact ⟨_, rfl⟩
      · exact ⟨_, rfl⟩
  · rw [if_neg hv]
    cases hfp : findPopular (normalize_company t) with
    | some kd => exact ⟨_, rfl⟩
    | none =>
      unfold llmAndFallback
      obtain ⟨x, hx⟩ :=
        careersStep_ok e (officialCheck e (openai_guess_company_and_urls hc e t).official_website)
          (openai_guess_company_and_urls hc e t).careers_url
          (officialCheck_truthy e _)
      rw [hx]
      exact ⟨_, rfl⟩

/-- C3: when the input is not itself a valid URL and its normalized hint
contains a popular-domain key, the official result is the homepage the
table maps a matching key to — whatever the oracles answer, reachability
included; in particular "Nvidia" resolves to https://www.nvidia.com. -/
theorem popular_key_determines_official :
    (∀ hc e t, is_valid_url t = false →
      (∃ kd, kd ∈ POPULAR_DOMAINS ∧ strContains (normalize_company t) kd.1 = true) →
      ∃ kd, kd ∈ POPULAR_DOMAINS ∧ strContains (normalize_company t) kd.1 = true ∧
        ∃ c d, best_urls_from_all_signals hc e t = Except.ok (some (JVal.jstr kd.2), c, d)) ∧
    (∀ hc e, ∃ c d, best_urls_from_all_signals hc e "Nvidia" =
      Except.ok (some (JVal.jstr "https://www.nvidia.com"), c, d)) := by
  have main : ∀ hc e t, is_valid_url t = false →
      ∀ kd, findPopular (normalize_company t) = some kd →
      best_urls_from_all_signals hc e t = popularBranch e kd := by
    intro hc e t hv kd hkd
    unfold best_urls_from_all_signals
    rw [hv, if_neg (by simp), hkd]
  refine ⟨?_, ?_⟩
  · intro hc e t hv hex
    have hsome : (findPopular (normalize_company t)).isSome := by
      unfold findPopular
      rw [List.find?_isSome]
      obtain ⟨kd, hmem, hp⟩ := hex
      exact ⟨kd, hmem, hp⟩
    obtain ⟨kd, hkd⟩ := Option.isSome_iff_exists.mp hsome
    have hkd2 : POPULAR_DOMAINS.find? (fun kd => strContains (normalize_company t) kd.1) =
        some kd := hkd
    have hp2 := List.find?_some hkd2
    refine ⟨kd, List.mem_of_find?_eq_some hkd2, hp2, ?_⟩
    rw [main hc e t hv kd hkd]
    exact ⟨_, _, rfl⟩
  · intro hc e
    rw [main hc e "Nvidia" rfl ("nvidia", "https://www.nvidia.com") rfl]
    exact ⟨_, _, rfl⟩

/-- C3 witness: at the concrete input "Nvidia" in the all-failing
environment the hypotheses hold and the official result is the mapped
homepage. -/
theorem popular_key_determines_official_witness :
    is_valid_url "Nvidia" = false ∧
    strContains (normalize_company "Nvidia") "nvidia" = true ∧
    (∃ kd, kd ∈ POPULAR_DOMAINS ∧ strContains (normalize_company "Nvidia") kd.1 = true ∧
      ∃ c d, best_urls_from_all_signals true envFail "Nvidia" =
        Except.ok (some (JVal.jstr kd.2), c, d)) :=
  ⟨rfl, rfl,
   popular_key_determines_official.1 true envFail "Nvidia" rfl
     ⟨("nvidia", "https://www.nvidia.com"), by decide, rfl⟩⟩

/-- C8: a valid-URL input takes the direct branch: official is the
input's origin; if the (lowercased) path mentions career/job the careers
result is the input itself, otherwise it is the discoverer's result on
the origin with the input as fallback; in particular
"https://openai.com/careers" keeps itself as careers. -/
theorem direct_url_branch_shape :
    (∀ hc e t p, urlparse t = some p → (p.scheme = "http" ∨ p.scheme = "https") →
      p.netloc ≠ "" →
      (strContains (strLower p.path) "career" ∨ strContains (strLower p.path) "job") →
      best_urls_from_all_signals hc e t =
        Except.ok (some (JVal.jstr (p.scheme ++ "://" ++ p.netloc)), some (JVal.jstr t),
                   ⟨some "direct_url", none, none⟩)) ∧
    (∀ hc e t p, urlparse t = some p → (p.scheme = "http" ∨ p.scheme = "https") →
      p.netloc ≠ "" →
      ¬ (strContains (strLower p.path) "career" ∨ strContains (strLower p.path) "job") →
      best_urls_from_all_signals hc e t =
        Except.ok (some (JVal.jstr (p.scheme ++ "://" ++ p.netloc)),
                   some (JVal.jstr (fallbackCareers e (p.scheme ++ "://" ++ p.netloc) t)),
                   ⟨some "direct_url", none, none⟩)) ∧
    (∀ hc e, best_urls_from_all_signals hc e "https://openai.com/careers" =
      Except.ok (some (JVal.jstr "https://openai.com"),
                 some (JVal.jstr "https://openai.com/careers"),
                 ⟨some "direct_url", none, none⟩)) := by
  have valid : ∀ t p, urlparse t = some p → (p.scheme = "http" ∨ p.scheme = "https") →
      p.netloc ≠ "" → is_valid_url t = true := by
    intro t p hp hs hn
    unfold is_valid_url
    rw [hp]
    dsimp only
    rw [if_pos ⟨hs, hn⟩]
  have part1 : ∀ hc e t p, urlparse t = some p → (p.scheme = "http" ∨ p.scheme = "https") →
      p.netloc ≠ "" →
      (strContains (strLower p.path) "career" ∨ strContains (strLower p.path) "job") →
      best_urls_from_all_signals hc e t =
        Except.ok (some (JVal.jstr (p.scheme ++ "://" ++ p.netloc)), some (JVal.jstr t),
                   ⟨some "direct_url", none, none⟩) := by
    intro hc e t p hp hs hn hcar
    unfold best_urls_from_all_signals
    rw [valid t p hp hs hn, if_pos rfl]
    unfold directBranch
    rw [hp]
    dsimp only
    rw [if_pos hcar]
    dsimp only
    rw [if_pos (input_ne_empty hp hn)]
  have part2 : ∀ hc e t p, urlparse t = some p → (p.scheme = "http" ∨ p.scheme = "https") →
      p.netloc ≠ "" →
      ¬ (strContains (strLower p.path) "career" ∨ strContains (strLower p.path) "job") →
      best_urls_from_all_signals hc e t =
        Except.ok (some (JVal.jstr (p.scheme ++ "://" ++ p.netloc)),
                   some (JVal.jstr (fallbackCareers e (p.scheme ++ "://" ++ p.netloc) t)),
                   ⟨some "direct_url", none, none⟩) := by
    intro hc e t p hp hs hn hcar
    unfold best_urls_from_all_signals
    rw [valid t p hp hs hn, if_pos rfl]
    unfold directBranch
    rw [hp]
    dsimp only
    rw [if_neg hcar]
  exact ⟨part1, part2, fun hc e =>
    part1 hc e "https://openai.com/careers" ⟨"https", "openai.com", "/careers", "/careers"⟩
      rfl (Or.inr rfl) (by decide) (Or.inl (by decide))⟩

/-- C8 witness: the concrete end-to-end scenario of the claim, with the
hypotheses discharged at "https://openai.com/careers". -/
theorem direct_url_branch_shape_witness :
    urlparse "https://openai.com/careers" =
      some ⟨"https", "openai.com", "/careers", "/careers"⟩ ∧
    best_urls_from_all_signals true envFail "https://openai.com/careers" =
      Except.ok (some (JVal.jstr "https://openai.com"),
                 some (JVal.jstr "https://openai.com/careers"),
                 ⟨some "direct_url", none, none⟩) :=
  ⟨rfl,
   direct_url_branch_shape.1 true envFail "https://openai.com/careers"
     ⟨"https", "openai.com", "/careers", "/careers"⟩
     rfl (Or.inr rfl) (by decide) (Or.inl (by decide))⟩

/-- C4 counterexample: in the fallback branch the code takes the *first*
search result and drops it when unreachable; it does not move on to the
first *reachable* result.  Here the first result is dead and the second is
live: the claim's "first reachable result" is the live one, yet the code
returns no official site at all. -/
theorem search_fallback_first_reachable_refuted :
    claimFirstReachable envC4 "zzz official site" = some "https://live.test" ∧
    best_urls_from_all_signals false envC4 "zzz" =
      Except.ok (none, none, ⟨none, some "zzz", some ⟨none, none, none⟩⟩) ∧
    ∀ c d, ¬ best_urls_from_all_signals false envC4 "zzz" =
        Except.ok (some (JVal.jstr "https://live.test"), c, d) := by
  refine ⟨rfl, rfl, fun c d h => ?_⟩
  have h2 : (Except.ok (none, none, ⟨none, some "zzz", some ⟨none, none, none⟩⟩) :
      Except String ResolveResult) =
      Except.ok (some (JVal.jstr "https://live.test"), c, d) := h
  exact Option.noConfusion
    (congrArg (fun x => match x with | Except.ok r => r.1 | Except.error _ => none) h2)

/-- C4 (amended): in the fallback branch, when a field is still unset the
corresponding query is issued and the *first result link* is accepted for
that field only if it passes the reachability probe; otherwise the field
is left as it was — no further results are tried.  Stated for the
scenario the claim describes (the LLM stage produced nothing). -/
theorem search_fallback_first_result_gated (hc : Bool) (e : Env) (t : String)
    (h1 : is_valid_url t = false)
    (h2 : findPopular (normalize_company t) = none)
    (h3 : openai_guess_company_and_urls hc e t = ⟨none, none, none⟩) :
    best_urls_from_all_signals hc e t =
      Except.ok (searchAccept e (normalize_company t ++ " official site"),
                 searchAccept e (normalize_company t ++ " careers site"),
                 ⟨none, some (normalize_company t), some ⟨none, none, none⟩⟩) :=
  empty_ai_fallback hc e t h1 h2 h3

/-- C4 witness: at "zzz" in `envC4` (all LLM calls raise) the hypotheses
hold; the dead first result is rejected and both fields stay empty. -/
theorem search_fallback_first_result_gated_witness :
    is_valid_url "zzz" = false ∧
    findPopular (normalize_company "zzz") = none ∧
    openai_guess_company_and_urls true envC4 "zzz" = ⟨none, none, none⟩ ∧
    best_urls_from_all_signals true envC4 "zzz" =
      Except.ok (searchAccept envC4 ("zzz" ++ " official site"),
                 searchAccept envC4 ("zzz" ++ " careers site"),
                 ⟨none, some "zzz", some ⟨none, none, none⟩⟩) ∧
    searchAccept envC4 ("zzz" ++ " official site") = none :=
  ⟨rfl, rfl, rfl, search_fallback_first_result_gated true envC4 "zzz" rfl rfl rfl, rfl⟩

/-- C9: with no configured client the resolver returns the empty triple
for every oracle behaviour and input (no request shape is attempted: the
result does not depend on the LLM oracles at all), so in the orchestrator
the LLM branch contributes nothing and resolution falls through to the
two search fallbacks. -/
theorem no_client_empty_triple_and_fallback :
    (∀ e t, openai_guess_company_and_urls false e t = ⟨none, none, none⟩) ∧
    (∀ e t, is_valid_url t = false → findPopular (normalize_company t) = none →
      best_urls_from_all_signals false e t =
        Except.ok (searchAccept e (normalize_company t ++ " official site"),
                   searchAccept e (normalize_company t ++ " careers site"),
                   ⟨none, some (normalize_company t), some ⟨none, none, none⟩⟩)) :=
  ⟨fun _ _ => rfl, fun e t h1 h2 => empty_ai_fallback false e t h1 h2 rfl⟩

/-- C9 witness: with no client, "zzz" reaches the search fallback; the
reachable official-site hit is accepted, the unreachable careers hit is
not. -/
theorem no_client_empty_triple_and_fallback_witness :
    is_valid_url "zzz" = false ∧
    findPopular (normalize_company "zzz") = none ∧
    best_urls_from_all_signals false envC9 "zzz" =
      Except.ok (some (JVal.jstr "https://ok.test"), none,
                 ⟨none, some "zzz", some ⟨none, none, none⟩⟩) := by
  refine ⟨rfl, rfl, ?_⟩
  rw [no_client_empty_triple_and_fallback.2 envC9 "zzz" rfl rfl]
  rfl

/-- C10: if the resolver returns a truthy official website that passes the
probe together with a truthy careers URL that fails it, and discovery on
the official site finds nothing, the unreachable LLM-provided careers URL
is kept, and the careers search fallback is skipped (the result does not
mention the careers query at all). -/
theorem llm_unreachable_careers_kept (hc : Bool) (e : Env) (t : String)
    (comp : Option JVal) (s c : String)
    (h1 : is_valid_url t = false)
    (h2 : findPopular (normalize_company t) = none)
    (h3 : openai_guess_company_and_urls hc e t =
      ⟨comp, some (JVal.jstr s), some (JVal.jstr c)⟩)
    (hs : s ≠ "") (hsafe : safe_head e s = true)
    (hcn : c ≠ "") (hcsafe : safe_head e c = false)
    (hdisc : discover_careers_from_domain e s = none) :
    best_urls_from_all_signals hc e t =
      Except.ok (some (JVal.jstr s), some (JVal.jstr c),
                 ⟨none, some (normalize_company t),
                  some ⟨comp, some (JVal.jstr s), some (JVal.jstr c)⟩⟩) := by
  unfold best_urls_from_all_signals
  rw [h1, if_neg (by simp), h2]
  unfold llmAndFallback
  rw [h3]
  have ho : officialCheck e (Triple.mk comp (some (JVal.jstr s)) (some (JVal.jstr c))).official_website =
      some (JVal.jstr s) := by
    unfold officialCheck
    rw [if_neg]
    intro hcon
    exact hcon.2 (by simpa [safeHeadJ] using hsafe)
  rw [ho]
  have hcs : careersStep e (some (JVal.jstr s))
      (Triple.mk comp (some (JVal.jstr s)) (some (JVal.jstr c))).careers_url =
      Except.ok (some (JVal.jstr c)) := by
    unfold careersStep
    rw [if_pos ⟨by simp [truthyO, truthyV, hs], Or.inr (by simp [safeHeadJ, hcsafe])⟩]
    dsimp only
    rw [hdisc]
  rw [hcs]
  dsimp only
  have hf1 : fallbackField e (some (JVal.jstr s)) (normalize_company t ++ " official site") =
      some (JVal.jstr s) := by
    unfold fallbackField
    rw [if_pos (by simp [truthyO, truthyV, hs])]
  have hf2 : fallbackField e (some (JVal.jstr c)) (normalize_company t ++ " careers site") =
      some (JVal.jstr c) := by
    unfold fallbackField
    rw [if_pos (by simp [truthyO, truthyV, hcn])]
  rw [hf1, hf2]

/-- C10 witness: concrete scenario with a reachable official site, an
unreachable careers URL, failing discovery and a careers search that
would have found a reachable link — the unreachable LLM careers URL is
kept anyway. -/
theorem llm_unreachable_careers_kept_witness :
    openai_guess_company_and_urls true envC10 "zqx" =
      ⟨some (JVal.jstr "X"), some (JVal.jstr "https://x.test"),
       some (JVal.jstr "https://x.test/hire")⟩ ∧
    safe_head envC10 "https://x.test" = true ∧
    safe_head envC10 "https://x.test/hire" = false ∧
    discover_careers_from_domain envC10 "https://x.test" = none ∧
    ddg_first_result envC10 ("zqx" ++ " careers site") = some "https://win.test" ∧
    safe_head envC10 "https://win.test" = true ∧
    best_urls_from_all_signals true envC10 "zqx" =
      Except.ok (some (JVal.jstr "https://x.test"), some (JVal.jstr "https://x.test/hire"),
                 ⟨none, some "zqx",
                  some ⟨some (JVal.jstr "X"), some (JVal.jstr "https://x.test"),
                        some (JVal.jstr "https://x.test/hire")⟩⟩) :=
  ⟨rfl, rfl, rfl, rfl, rfl, rfl,
   llm_unreachable_careers_kept true envC10 "zqx" (some (JVal.jstr "X"))
     "https://x.test" "https://x.test/hire" rfl rfl rfl
     (by decide) rfl (by decide) rfl rfl⟩

end CareerAgent
